import Mathlib

/-!
Shallow embedding of the job lifecycle, usage-accounting and real-time
notification core of the ocrbase repository.

The durable database state (jobs, usage_events, api_key_usage_daily tables)
is modelled as lists of rows; timestamps are Nat milliseconds since the Unix
epoch, and the `date`-typed day key of the daily aggregate is modelled as the
number of whole UTC days since the epoch (`msToDay`), which determines and is
determined by the date part of `Date.toISOString` for non-negative instants.
JSONB values are modelled opaquely as strings.  Each operation is a pure
function from database state to database state together with the list of
messages it hands to `publishJobUpdate`.
-/

/-- Job status enum, from packages/db/src/lib/enums.ts (`jobStatusEnum`). -/
inductive JobStatus where
  | pending
  | processing
  | extracting
  | completed
  | failed
deriving DecidableEq, Repr

/-- A row of the `jobs` table (the columns the core reads or writes;
from the migration in src/unnamed/part_002: `retry_count` is NOT NULL
DEFAULT 0, the result/error/timing columns are nullable). -/
structure Job where
  id : String
  organizationId : String
  userId : String
  apiKeyId : Option String
  status : JobStatus
  markdownResult : Option String
  jsonResult : Option String
  pageCount : Option Nat
  tokenCount : Option Nat
  llmModel : Option String
  errorCode : Option String
  errorMessage : Option String
  retryCount : Nat
  startedAt : Option Nat
  completedAt : Option Nat
  processingTimeMs : Option Nat
deriving DecidableEq, Repr

/-- A row of the `usage_events` table (migration 0001: `job_id` UNIQUE,
`created_at timestamp DEFAULT now()` — the database clock at insert). -/
structure UsageEvent where
  id : Nat
  apiKeyId : String
  jobId : String
  pages : Nat
  promptTokens : Nat
  completionTokens : Nat
  model : Option String
  createdAt : Nat
deriving DecidableEq, Repr

/-- A row of the `api_key_usage_daily` table (migration 0001:
PRIMARY KEY (`api_key_id`, `day`)). -/
structure DailyUsageRow where
  apiKeyId : String
  day : Nat
  pages : Nat
  jobsCount : Nat
  promptTokens : Nat
  completionTokens : Nat
deriving DecidableEq, Repr

/-- The durable database state seen by the core; `nextEventId` models the
id-generation default of the `usage_events` primary key. -/
structure DBState where
  jobs : List Job
  usageEvents : List UsageEvent
  apiKeyUsageDaily : List DailyUsageRow
  nextEventId : Nat
deriving DecidableEq, Repr

/-- `LlmUsage` from apps/server/src/services/llm.ts. -/
structure LlmUsage where
  promptTokens : Nat
  completionTokens : Nat
deriving DecidableEq, Repr

/-- `CompleteJobResult` from apps/server/src/lib/api-key.ts. -/
structure CompleteJobResult where
  markdownResult : String
  jsonResult : Option String
  pageCount : Nat
  tokenCount : Option Nat
  llmModel : Option String
  llmUsage : Option LlmUsage
  processingTimeMs : Nat
deriving DecidableEq, Repr

/-- `UpdateData` (without `status`) from apps/server/src/lib/api-key.ts:
every field is optional; an absent (`none`) field is omitted from the
drizzle `set` clause and keeps its stored value. -/
structure UpdateData where
  markdownResult : Option String := none
  jsonResult : Option String := none
  pageCount : Option Nat := none
  tokenCount : Option Nat := none
  errorCode : Option String := none
  errorMessage : Option String := none
  retryCount : Option Nat := none
  startedAt : Option Nat := none
  completedAt : Option Nat := none
  processingTimeMs : Option Nat := none
deriving DecidableEq, Repr

/-- The messages handed to `publishJobUpdate`, shaped as in the three call
sites in api-key.ts (and the wire shapes of spec section 6). -/
inductive JobUpdateMessage where
  | status (jobId : String) (status : JobStatus) (processingTimeMs : Option Nat)
  | completed (jobId : String) (markdownResult : String) (jsonResult : Option String)
      (processingTimeMs : Nat)
  | error (jobId : String) (error : String)
deriving DecidableEq, Repr

/-- Milliseconds in one UTC day. -/
def msPerDay : Nat := 86400000

/-- The UTC calendar day of a millisecond instant, i.e. the model of
`date.toISOString().split("T")[0]`: two instants map to the same day index
exactly when they share that date part. -/
def msToDay (t : Nat) : Nat := t / msPerDay

/-- Drizzle `set` semantics for an optional input field: a provided value
overwrites, an absent (`undefined`) one is omitted and keeps the old value. -/
def setOpt {α : Type} (new old : Option α) : Option α :=
  match new with
  | some v => some v
  | none => old

/-- First `jobs` row with the given id (`findFirst` / `where eq(jobs.id, jobId)`). -/
def findJob? (jobId : String) : List Job → Option Job
  | [] => none
  | j :: js => if j.id = jobId then some j else findJob? jobId js

/-- Whether a `usage_events` row with this `job_id` exists (the unique
constraint consulted by `onConflictDoNothing({ target: usageEvents.jobId })`). -/
def hasUsageEvent (jobId : String) : List UsageEvent → Bool
  | [] => false
  | e :: es => if e.jobId = jobId then true else hasUsageEvent jobId es

/-- Number of `usage_events` rows keyed by this `job_id`. -/
def eventCount (jobId : String) : List UsageEvent → Nat
  | [] => 0
  | e :: es => (if e.jobId = jobId then 1 else 0) + eventCount jobId es

/-- The `set { status, ...data }` clause of `updateJobStatus` applied to one row. -/
def applyUpdate (j : Job) (status : JobStatus) (data : UpdateData) : Job :=
  { j with
    status := status
    markdownResult := setOpt data.markdownResult j.markdownResult
    jsonResult := setOpt data.jsonResult j.jsonResult
    pageCount := setOpt data.pageCount j.pageCount
    tokenCount := setOpt data.tokenCount j.tokenCount
    errorCode := setOpt data.errorCode j.errorCode
    errorMessage := setOpt data.errorMessage j.errorMessage
    retryCount := (setOpt data.retryCount (some j.retryCount)).getD j.retryCount
    startedAt := setOpt data.startedAt j.startedAt
    completedAt := setOpt data.completedAt j.completedAt
    processingTimeMs := setOpt data.processingTimeMs j.processingTimeMs }

/-- `updateJobStatus(jobId, status, data)`: one durable `update ... where id`
write, then one `status` notification (published unconditionally). -/
def updateJobStatus (jobId : String) (status : JobStatus) (data : UpdateData)
    (db : DBState) : DBState × List JobUpdateMessage :=
  let db' := { db with
    jobs := db.jobs.map fun j => if j.id = jobId then applyUpdate j status data else j }
  (db', [.status jobId status data.processingTimeMs])

/-- The `set` clause of `completeJob`'s job-row update applied to one row
(`completedAt` is the instant captured at the top of `completeJob`). -/
def applyComplete (j : Job) (r : CompleteJobResult) (now : Nat) : Job :=
  { j with
    completedAt := some now
    jsonResult := setOpt r.jsonResult j.jsonResult
    llmModel := setOpt r.llmModel j.llmModel
    markdownResult := some r.markdownResult
    pageCount := some r.pageCount
    processingTimeMs := some r.processingTimeMs
    status := .completed
    tokenCount := setOpt r.tokenCount j.tokenCount }

/-- `result.llmUsage?.promptTokens ?? 0`. -/
def promptTokensOf (r : CompleteJobResult) : Nat :=
  match r.llmUsage with
  | some u => u.promptTokens
  | none => 0

/-- `result.llmUsage?.completionTokens ?? 0`. -/
def completionTokensOf (r : CompleteJobResult) : Nat :=
  match r.llmUsage with
  | some u => u.completionTokens
  | none => 0

/-- The daily-aggregate `insert ... onConflictDoUpdate` of `completeJob`:
add this job's counts to the row conflicting on the (apiKeyId, day) primary
key — at most one such row exists — or append the fresh row when none does. -/
def upsertDaily (k : String) (d : Nat) (pages pt ct : Nat) :
    List DailyUsageRow → List DailyUsageRow
  | [] => [{ apiKeyId := k, day := d, pages := pages, jobsCount := 1,
             promptTokens := pt, completionTokens := ct }]
  | r :: rs =>
      if r.apiKeyId = k ∧ r.day = d then
        { r with
          pages := r.pages + pages
          jobsCount := r.jobsCount + 1
          promptTokens := r.promptTokens + pt
          completionTokens := r.completionTokens + ct } :: rs
      else r :: upsertDaily k d pages pt ct rs

/-- The `db.transaction` body of `completeJob`: insert the usage event
(`onConflictDoNothing` on `jobId` — a duplicate is a silent no-op) and, only
when the insert was new, upsert the daily aggregate.  `dbNow` is the database
clock supplying the event row's `created_at` default. -/
def recordUsageTx (apiKeyId jobId : String) (pages pt ct : Nat)
    (model : Option String) (day : Nat) (dbNow : Nat) (db : DBState) : DBState :=
  if hasUsageEvent jobId db.usageEvents then db
  else
    { db with
      usageEvents := db.usageEvents ++
        [{ id := db.nextEventId, apiKeyId := apiKeyId, jobId := jobId,
           pages := pages, promptTokens := pt, completionTokens := ct,
           model := model, createdAt := dbNow }]
      nextEventId := db.nextEventId + 1
      apiKeyUsageDaily := upsertDaily apiKeyId day pages pt ct db.apiKeyUsageDaily }

/-- The first durable unit of `completeJob`: the `update jobs ... returning
apiKeyId` statement, committed on its own before the usage transaction
begins.  Returns the new state and the `[updatedJob]` head of `returning`. -/
def completeJobRowWrite (jobId : String) (r : CompleteJobResult) (now : Nat)
    (db : DBState) : DBState × Option (Option String) :=
  ({ db with
      jobs := db.jobs.map fun j => if j.id = jobId then applyComplete j r now else j },
   (findJob? jobId db.jobs).map fun j => (applyComplete j r now).apiKeyId)

/-- The durable state left behind if execution stops after `completeJob`'s
job-row update has committed but before its usage transaction runs (the two
are separate awaited statements in the source). -/
def completeJobAfterRowCommit (jobId : String) (r : CompleteJobResult) (now : Nat)
    (db : DBState) : DBState :=
  (completeJobRowWrite jobId r now db).1

/-- `completeJob(jobId, result)`: job-row write (own durable unit), then —
only when a row was updated and it has an owning API key — the usage
transaction keyed by `today = completedAt.toISOString().split("T")[0]`, then
the unconditional `completed` notification.  `now` is the `new Date()`
captured at entry; `dbNow` the database clock stamping the event row. -/
def completeJob (jobId : String) (r : CompleteJobResult) (now dbNow : Nat)
    (db : DBState) : DBState × List JobUpdateMessage :=
  (match (completeJobRowWrite jobId r now db).2 with
   | some (some apiKeyId) =>
       recordUsageTx apiKeyId jobId r.pageCount (promptTokensOf r)
         (completionTokensOf r) r.llmModel (msToDay now) dbNow
         (completeJobRowWrite jobId r now db).1
   | _ => (completeJobRowWrite jobId r now db).1,
   [.completed jobId r.markdownResult r.jsonResult r.processingTimeMs])

/-- `failJob(jobId, errorCode, errorMessage, shouldRetry)`: read the current
retry count (`?? 0` when no row), write status/error/retry fields, publish an
`error` notification only when `shouldRetry` is false. -/
def failJob (jobId errorCode errorMessage : String) (shouldRetry : Bool)
    (db : DBState) : DBState × List JobUpdateMessage :=
  let retryCount := ((findJob? jobId db.jobs).map (·.retryCount)).getD 0 + 1
  let db' := { db with
    jobs := db.jobs.map fun j =>
      if j.id = jobId then
        { j with
          errorCode := some errorCode
          errorMessage := some errorMessage
          retryCount := retryCount
          status := .failed }
      else j }
  (db', if shouldRetry then [] else [.error jobId errorMessage])

/-- Modelled from the spec: the Notification Bus of
apps/server/src/services/websocket.ts (`subscribeToJob`, `unsubscribeFromJob`)
is not among the provided sources; per spec section 4.3 it is an in-process
mapping from job identifier to a set of callback handles.  Callback handles
are modelled as opaque numbers, the registry as a duplicate-free association
list of (jobId, callback) pairs. -/
structure BusState where
  subs : List (String × Nat)
deriving DecidableEq, Repr

/-- Modelled from the spec: `subscribeToJob(jobId, callback)` adds the
callback to the set for jobId (set semantics: adding a member is a no-op). -/
def subscribeToJob (jobId : String) (cb : Nat) (b : BusState) : BusState :=
  if (jobId, cb) ∈ b.subs then b else { subs := (jobId, cb) :: b.subs }

/-- Modelled from the spec: `unsubscribeFromJob(jobId, callback)` removes the
callback from the set for jobId; removing a non-member is a no-op. -/
def unsubscribeFromJob (jobId : String) (cb : Nat) (b : BusState) : BusState :=
  { subs := b.subs.filter fun p => p ≠ (jobId, cb) }

/-- The per-connection data the gateway's open handler stores on `ws.data`. -/
structure WsData where
  jobId : String
  userId : String
  organizationId : String
  callback : Nat
deriving DecidableEq, Repr

/-- A payload written to the WebSocket peer: a connection-level error
object `{ error, type: "error" }`, a relayed/synthetic job message, or a pong. -/
inductive WsPayload where
  | connError (error : String)
  | jobMsg (m : JobUpdateMessage)
  | pong
deriving DecidableEq, Repr

/-- Everything the open handler of `/ws/jobs/:jobId` leaves behind: the
payloads sent, whether it closed the connection, the Bus state, and the
stored `wsData` (none on the failure paths). -/
structure WsOpenResult where
  sent : List WsPayload
  closed : Bool
  bus : BusState
  wsData : Option WsData
deriving DecidableEq, Repr

/-- First `jobs` row matching `and(eq(jobs.id, jobId), eq(jobs.organizationId, orgId))`. -/
def findJobInOrg? (jobId orgId : String) : List Job → Option Job
  | [] => none
  | j :: js =>
      if j.id = jobId ∧ j.organizationId = orgId then some j
      else findJobInOrg? jobId orgId js

/-- The gateway's open handler (jobsWebSocket.open).  Identity resolution —
API-key or session auth, both external collaborators — is abstracted as its
outcome `authResult = (userId, organizationId)` or `none`; `cb` is the fresh
callback handle the handler creates for this connection.  On auth failure:
send `Unauthorized` and close.  On no job row matching (jobId, organizationId):
send `Job not found` and close, touching neither Bus nor `wsData`.  Otherwise
store `wsData`, subscribe, and send the synthetic first status message. -/
def jobsWsOpen (jobId : String) (authResult : Option (String × String)) (cb : Nat)
    (db : DBState) (bus : BusState) : WsOpenResult :=
  match authResult with
  | none =>
      { sent := [.connError "Unauthorized"], closed := true, bus := bus, wsData := none }
  | some (userId, organizationId) =>
      match findJobInOrg? jobId organizationId db.jobs with
      | none =>
          { sent := [.connError "Job not found"], closed := true, bus := bus,
            wsData := none }
      | some job =>
          { sent := [.jobMsg (.status jobId job.status none)]
            closed := false
            bus := subscribeToJob jobId cb bus
            wsData := some { jobId := jobId, userId := userId,
                             organizationId := organizationId, callback := cb } }

/-- The gateway's close handler (jobsWebSocket.close): if `wsData` was stored,
unsubscribe exactly that callback from exactly that jobId; otherwise nothing. -/
def jobsWsClose (wsData : Option WsData) (bus : BusState) : BusState :=
  match wsData with
  | some w => unsubscribeFromJob w.jobId w.callback bus
  | none => bus

/-- Componentwise sum on the (pages, jobsCount, promptTokens,
completionTokens) count vectors. -/
def add4 (a b : Nat × Nat × Nat × Nat) : Nat × Nat × Nat × Nat :=
  (a.1 + b.1, a.2.1 + b.2.1, a.2.2.1 + b.2.2.1, a.2.2.2 + b.2.2.2)

/-- The count vector one usage event contributes. -/
def evTuple (e : UsageEvent) : Nat × Nat × Nat × Nat :=
  (e.pages, 1, e.promptTokens, e.completionTokens)

/-- Sum of the count vectors of the usage events of API key `k` whose
`created_at` falls on UTC day `d`. -/
def sumEvents (k : String) (d : Nat) : List UsageEvent → Nat × Nat × Nat × Nat
  | [] => (0, 0, 0, 0)
  | e :: es =>
      if e.apiKeyId = k ∧ msToDay e.createdAt = d then add4 (sumEvents k d es) (evTuple e)
      else sumEvents k d es

/-- The count vector of the first (k, d) daily-aggregate row, (0,0,0,0)
if absent. -/
def aggValue (k : String) (d : Nat) : List DailyUsageRow → Nat × Nat × Nat × Nat
  | [] => (0, 0, 0, 0)
  | r :: rs =>
      if r.apiKeyId = k ∧ r.day = d then
        (r.pages, r.jobsCount, r.promptTokens, r.completionTokens)
      else aggValue k d rs

/-- At most one daily-aggregate row per (apiKeyId, day) — the table's
primary key. -/
def uniqueDailyKeys (rows : List DailyUsageRow) : Prop :=
  rows.Pairwise fun a b => ¬(a.apiKeyId = b.apiKeyId ∧ a.day = b.day)

/-- The aggregate-consistency invariant: at most one aggregate row per
(apiKeyId, day), and each pair's aggregate equals the sum over that key's
usage events created on that day. -/
def aggConsistent (db : DBState) : Prop :=
  uniqueDailyKeys db.apiKeyUsageDaily ∧
    ∀ k d, aggValue k d db.apiKeyUsageDaily = sumEvents k d db.usageEvents

/-- One `completeJob` invocation's inputs: the job id, the result payload,
the application clock (`new Date()`) and the database clock (`now()`). -/
structure CompleteCall where
  jobId : String
  result : CompleteJobResult
  now : Nat
  dbNow : Nat
deriving Repr

/-- Replay a sequence of `completeJob` calls (discarding notifications). -/
def runCompletes : List CompleteCall → DBState → DBState
  | [], db => db
  | c :: cs, db => runCompletes cs (completeJob c.jobId c.result c.now c.dbNow db).1

/-- Modelled from the spec: the forward order of the state machine of spec
section 4.1 (pending → processing → extracting → completed|failed), used only
to state what a "backward" transition is. -/
def statusRank : JobStatus → Nat
  | .pending => 0
  | .processing => 1
  | .extracting => 2
  | .completed => 3
  | .failed => 3

/-- Modelled from the spec: the terminal statuses of the state machine (spec
section 4.1 and glossary). -/
def isTerminal : JobStatus → Bool
  | .completed => true
  | .failed => true
  | _ => false

/-- A concrete `processing` job owned by API key `ak_1` (the scenario of spec
section 8). -/
def sampleJob : Job :=
  { id := "job_abc", organizationId := "org_1", userId := "u_1",
    apiKeyId := some "ak_1", status := .processing,
    markdownResult := none, jsonResult := none, pageCount := none,
    tokenCount := none, llmModel := none, errorCode := none,
    errorMessage := none, retryCount := 0, startedAt := none,
    completedAt := none, processingTimeMs := none }

/-- The completion payload of the spec section 8 scenario. -/
def sampleResult : CompleteJobResult :=
  { markdownResult := "# Hi", jsonResult := none, pageCount := 2,
    tokenCount := some 50, llmModel := none,
    llmUsage := some { promptTokens := 30, completionTokens := 20 },
    processingTimeMs := 1000 }

/-- A database holding only `sampleJob`, with empty usage tables. -/
def sampleDB : DBState :=
  { jobs := [sampleJob], usageEvents := [], apiKeyUsageDaily := [], nextEventId := 0 }

/-- A concrete job already in the terminal `completed` status. -/
def doneJob : Job :=
  { sampleJob with id := "job_done", status := .completed }

/-- A database holding only `doneJob`. -/
def doneDB : DBState :=
  { jobs := [doneJob], usageEvents := [], apiKeyUsageDaily := [], nextEventId := 0 }

/-- An entirely empty database. -/
def emptyDB : DBState :=
  { jobs := [], usageEvents := [], apiKeyUsageDaily := [], nextEventId := 0 }

section Lemmas

theorem findJob?_eq_none_iff (jobId : String) (l : List Job) :
    findJob? jobId l = none ↔ ∀ j ∈ l, j.id ≠ jobId := by
  induction l with
  | nil => simp [findJob?]
  | cons j js ih =>
      by_cases hj : j.id = jobId
      · simp [findJob?, hj]
      · simp [findJob?, hj, ih]

theorem findJob?_map_target (jobId : String) (l : List Job) (f : Job → Job)
    (hf : ∀ j, (f j).id = j.id) :
    findJob? jobId (l.map fun j => if j.id = jobId then f j else j) =
      (findJob? jobId l).map f := by
  induction l with
  | nil => simp [findJob?]
  | cons j js ih =>
      by_cases hj : j.id = jobId
      · simp [findJob?, hj, hf]
      · simp [findJob?, hj, ih]

theorem map_no_id_match (jobId : String) (l : List Job) (f : Job → Job)
    (h : ∀ j ∈ l, j.id ≠ jobId) :
    (l.map fun j => if j.id = jobId then f j else j) = l := by
  induction l with
  | nil => rfl
  | cons j js ih =>
      have hj : j.id ≠ jobId := h j (by simp)
      simp only [List.map_cons, if_neg hj]
      rw [ih fun x hx => h x (by simp [hx])]

theorem eventCount_append (jobId : String) (l l' : List UsageEvent) :
    eventCount jobId (l ++ l') = eventCount jobId l + eventCount jobId l' := by
  induction l with
  | nil => simp [eventCount]
  | cons e es ih => simp [eventCount, ih]; omega

theorem hasUsageEvent_eq_false_iff (jobId : String) (l : List UsageEvent) :
    hasUsageEvent jobId l = false ↔ eventCount jobId l = 0 := by
  induction l with
  | nil => simp [hasUsageEvent, eventCount]
  | cons e es ih =>
      by_cases he : e.jobId = jobId
      · simp [hasUsageEvent, eventCount, he]
      · simp [hasUsageEvent, eventCount, he, ih]

theorem findJobInOrg?_eq_none_iff (jobId orgId : String) (l : List Job) :
    findJobInOrg? jobId orgId l = none ↔
      ∀ j ∈ l, ¬(j.id = jobId ∧ j.organizationId = orgId) := by
  induction l with
  | nil => simp [findJobInOrg?]
  | cons j js ih =>
      by_cases hj : j.id = jobId ∧ j.organizationId = orgId
      · simp [findJobInOrg?, hj]
      · simp only [findJobInOrg?, if_neg hj, ih, List.mem_cons]
        constructor
        · intro hall x hx
          rcases hx with hx | hx
          · exact hx ▸ hj
          · exact hall x hx
        · intro hall x hx
          exact hall x (Or.inr hx)

theorem failJob_row_eq (db : DBState) (jobId ec em : String) (retry : Bool)
    (j : Job) (h : findJob? jobId db.jobs = some j) :
    findJob? jobId ((failJob jobId ec em retry db).1).jobs =
      some { j with errorCode := some ec, errorMessage := some em,
                    retryCount := j.retryCount + 1, status := .failed } := by
  unfold failJob
  simp only [h, Option.map_some', Option.getD_some]
  rw [findJob?_map_target jobId db.jobs
    (fun x => { x with
                errorCode := some ec, errorMessage := some em,
                retryCount := j.retryCount + 1, status := .failed })
    (fun _ => rfl)]
  rw [h]
  rfl

theorem completeJobRowWrite_ret (db : DBState) (jobId : String)
    (r : CompleteJobResult) (now : Nat) (j : Job)
    (hfind : findJob? jobId db.jobs = some j) :
    (completeJobRowWrite jobId r now db).2 = some j.apiKeyId := by
  unfold completeJobRowWrite
  rw [hfind]
  rfl

theorem completeJob_jobs_eq (db : DBState) (jobId : String)
    (r : CompleteJobResult) (now dbNow : Nat) :
    (completeJob jobId r now dbNow db).1.jobs =
      ((completeJobRowWrite jobId r now db).1).jobs := by
  unfold completeJob recordUsageTx
  split
  · split
    · rfl
    · rfl
  · rfl

theorem completeJob_inserts (db : DBState) (jobId : String)
    (r : CompleteJobResult) (now dbNow : Nat) (j : Job) (k : String)
    (hfind : findJob? jobId db.jobs = some j)
    (hkey : j.apiKeyId = some k)
    (h0 : hasUsageEvent jobId db.usageEvents = false) :
    (completeJob jobId r now dbNow db).1.usageEvents = db.usageEvents ++
      [{ id := db.nextEventId, apiKeyId := k, jobId := jobId,
         pages := r.pageCount, promptTokens := promptTokensOf r,
         completionTokens := completionTokensOf r, model := r.llmModel,
         createdAt := dbNow }] ∧
    (completeJob jobId r now dbNow db).1.apiKeyUsageDaily =
      upsertDaily k (msToDay now) r.pageCount (promptTokensOf r)
        (completionTokensOf r) db.apiKeyUsageDaily := by
  have hret := completeJobRowWrite_ret db jobId r now j hfind
  have h0' : hasUsageEvent jobId
      ((completeJobRowWrite jobId r now db).1).usageEvents = false := h0
  unfold completeJob
  simp only [hret, hkey]
  unfold recordUsageTx
  rw [if_neg (by rw [h0']; exact Bool.false_ne_true)]
  exact ⟨rfl, rfl⟩

theorem completeJob_usage_frozen (db : DBState) (jobId : String)
    (r : CompleteJobResult) (now dbNow : Nat)
    (h : hasUsageEvent jobId db.usageEvents = true) :
    (completeJob jobId r now dbNow db).1.usageEvents = db.usageEvents ∧
    (completeJob jobId r now dbNow db).1.apiKeyUsageDaily = db.apiKeyUsageDaily := by
  cases hret : (completeJobRowWrite jobId r now db).2 with
  | none =>
      unfold completeJob
      simp only [hret]
      exact ⟨rfl, rfl⟩
  | some o =>
      cases o with
      | none =>
          unfold completeJob
          simp only [hret]
          exact ⟨rfl, rfl⟩
      | some k =>
          have h' : hasUsageEvent jobId
              ((completeJobRowWrite jobId r now db).1).usageEvents = true := h
          unfold completeJob
          simp only [hret]
          unfold recordUsageTx
          rw [if_pos h']
          exact ⟨rfl, rfl⟩

theorem runCompletes_usage_frozen (calls : List CompleteCall) (db : DBState)
    (jobId : String) (h : hasUsageEvent jobId db.usageEvents = true)
    (hc : ∀ c ∈ calls, c.jobId = jobId) :
    (runCompletes calls db).usageEvents = db.usageEvents ∧
    (runCompletes calls db).apiKeyUsageDaily = db.apiKeyUsageDaily := by
  induction calls generalizing db with
  | nil => exact ⟨rfl, rfl⟩
  | cons c cs ih =>
      have hcj : c.jobId = jobId := hc c (by simp)
      have hfrozen := completeJob_usage_frozen db c.jobId c.result c.now c.dbNow
        (by rw [hcj]; exact h)
      have hnext : hasUsageEvent jobId
          ((completeJob c.jobId c.result c.now c.dbNow db).1).usageEvents = true := by
        rw [hfrozen.1]; exact h
      have hrest := ih (completeJob c.jobId c.result c.now c.dbNow db).1 hnext
        fun x hx => hc x (by simp [hx])
      exact ⟨by rw [runCompletes, hrest.1, hfrozen.1],
             by rw [runCompletes, hrest.2, hfrozen.2]⟩

theorem hasUsageEvent_of_count_pos (jobId : String) (l : List UsageEvent)
    (h : eventCount jobId l ≠ 0) : hasUsageEvent jobId l = true := by
  by_contra hb
  exact h ((hasUsageEvent_eq_false_iff jobId l).mp (Bool.eq_false_iff.mpr hb))

theorem completeJobRowWrite_row (db : DBState) (jobId : String)
    (r : CompleteJobResult) (now : Nat) (j : Job)
    (hfind : findJob? jobId db.jobs = some j) :
    findJob? jobId ((completeJobRowWrite jobId r now db).1).jobs =
      some (applyComplete j r now) := by
  unfold completeJobRowWrite
  exact (findJob?_map_target jobId db.jobs (fun x => applyComplete x r now)
    (fun _ => rfl)).trans (by rw [hfind]; rfl)

theorem add4_right_comm (a b c : Nat × Nat × Nat × Nat) :
    add4 (add4 a b) c = add4 (add4 a c) b := by
  simp [add4, Nat.add_right_comm]

theorem sumEvents_append_single (k : String) (d : Nat) (l : List UsageEvent)
    (e : UsageEvent) :
    sumEvents k d (l ++ [e]) =
      if e.apiKeyId = k ∧ msToDay e.createdAt = d then
        add4 (sumEvents k d l) (evTuple e)
      else sumEvents k d l := by
  induction l with
  | nil => simp [sumEvents]
  | cons x xs ih =>
      simp only [List.cons_append, sumEvents, List.append_eq, ih]
      split_ifs with h1 h2 <;> first | rfl | exact add4_right_comm _ _ _

theorem aggValue_upsert_self (k : String) (d : Nat) (p pt ct : Nat)
    (rows : List DailyUsageRow) :
    aggValue k d (upsertDaily k d p pt ct rows) =
      add4 (aggValue k d rows) (p, 1, pt, ct) := by
  induction rows with
  | nil => simp [upsertDaily, aggValue, add4]
  | cons r rs ih =>
      by_cases hr : r.apiKeyId = k ∧ r.day = d
      · simp [upsertDaily, aggValue, hr, add4]
      · simp [upsertDaily, aggValue, hr, ih]

theorem aggValue_upsert_other (k k' : String) (d d' : Nat) (p pt ct : Nat)
    (rows : List DailyUsageRow) (h : ¬(k = k' ∧ d = d')) :
    aggValue k' d' (upsertDaily k d p pt ct rows) = aggValue k' d' rows := by
  induction rows with
  | nil =>
      simp only [upsertDaily, aggValue]
      rw [if_neg h]
  | cons r rs ih =>
      by_cases hr : r.apiKeyId = k ∧ r.day = d
      · have hne : ¬(r.apiKeyId = k' ∧ r.day = d') := fun hc =>
          h ⟨hr.1.symm.trans hc.1, hr.2.symm.trans hc.2⟩
        simp only [upsertDaily, if_pos hr, aggValue]
        rw [if_neg hne, if_neg hne]
      · simp only [upsertDaily, if_neg hr, aggValue]
        by_cases hr' : r.apiKeyId = k' ∧ r.day = d'
        · rw [if_pos hr', if_pos hr']
        · rw [if_neg hr', if_neg hr', ih]

theorem upsertDaily_keys (k : String) (d : Nat) (p pt ct : Nat)
    (rows : List DailyUsageRow) :
    ∀ b ∈ upsertDaily k d p pt ct rows,
      (b.apiKeyId = k ∧ b.day = d) ∨
        ∃ x ∈ rows, b.apiKeyId = x.apiKeyId ∧ b.day = x.day := by
  induction rows with
  | nil =>
      intro b hb
      simp only [upsertDaily, List.mem_singleton] at hb
      subst hb
      exact Or.inl ⟨rfl, rfl⟩
  | cons r rs ih =>
      intro b hb
      by_cases hr : r.apiKeyId = k ∧ r.day = d
      · simp only [upsertDaily, if_pos hr, List.mem_cons] at hb
        rcases hb with hb | hb
        · subst hb
          exact Or.inr ⟨r, by simp, rfl, rfl⟩
        · exact Or.inr ⟨b, by simp [hb], rfl, rfl⟩
      · simp only [upsertDaily, if_neg hr, List.mem_cons] at hb
        rcases hb with hb | hb
        · subst hb
          exact Or.inr ⟨b, by simp, rfl, rfl⟩
        · rcases ih b hb with h1 | ⟨x, hx, h2⟩
          · exact Or.inl h1
          · exact Or.inr ⟨x, by simp [hx], h2⟩

theorem uniqueDailyKeys_upsert (k : String) (d : Nat) (p pt ct : Nat)
    (rows : List DailyUsageRow) (h : uniqueDailyKeys rows) :
    uniqueDailyKeys (upsertDaily k d p pt ct rows) := by
  induction rows with
  | nil => simp [upsertDaily, uniqueDailyKeys]
  | cons r rs ih =>
      rw [uniqueDailyKeys, List.pairwise_cons] at h
      by_cases hr : r.apiKeyId = k ∧ r.day = d
      · rw [uniqueDailyKeys]
        simp only [upsertDaily, if_pos hr]
        rw [List.pairwise_cons]
        exact ⟨fun b hb => h.1 b hb, h.2⟩
      · rw [uniqueDailyKeys]
        simp only [upsertDaily, if_neg hr]
        rw [List.pairwise_cons]
        refine ⟨fun b hb => ?_, ih h.2⟩
        rcases upsertDaily_keys k d p pt ct rs b hb with h1 | ⟨x, hx, h2⟩
        · intro hc
          exact hr ⟨hc.1.trans h1.1, hc.2.trans h1.2⟩
        · intro hc
          exact h.1 x hx ⟨hc.1.trans h2.1, hc.2.trans h2.2⟩

theorem recordUsageTx_preserves (apiKeyId jobId : String) (pages pt ct : Nat)
    (model : Option String) (now dbNow : Nat) (db : DBState)
    (hday : msToDay dbNow = msToDay now)
    (h : aggConsistent db) :
    aggConsistent (recordUsageTx apiKeyId jobId pages pt ct model
      (msToDay now) dbNow db) := by
  unfold recordUsageTx
  by_cases he : hasUsageEvent jobId db.usageEvents = true
  · rw [if_pos he]; exact h
  · rw [if_neg he]
    constructor
    · exact uniqueDailyKeys_upsert _ _ _ _ _ _ h.1
    · intro k' d'
      show aggValue k' d' (upsertDaily apiKeyId (msToDay now) pages pt ct
          db.apiKeyUsageDaily) =
        sumEvents k' d' (db.usageEvents ++
          [{ id := db.nextEventId, apiKeyId := apiKeyId, jobId := jobId,
             pages := pages, promptTokens := pt, completionTokens := ct,
             model := model, createdAt := dbNow }])
      rw [sumEvents_append_single]
      by_cases hkd : apiKeyId = k' ∧ msToDay now = d'
      · obtain ⟨hk, hd⟩ := hkd
        subst hk; subst hd
        rw [aggValue_upsert_self, if_pos ⟨rfl, hday⟩, h.2]
        rfl
      · rw [aggValue_upsert_other _ _ _ _ _ _ _ _ hkd, h.2 k' d',
          if_neg (fun hc => hkd ⟨hc.1, hday ▸ hc.2⟩)]

theorem completeJob_preserves_aggConsistent (jobId : String)
    (r : CompleteJobResult) (now dbNow : Nat) (db : DBState)
    (hday : msToDay dbNow = msToDay now)
    (h : aggConsistent db) :
    aggConsistent (completeJob jobId r now dbNow db).1 := by
  cases hret : (completeJobRowWrite jobId r now db).2 with
  | none =>
      unfold completeJob
      simp only [hret]
      exact h
  | some o =>
      cases o with
      | none =>
          unfold completeJob
          simp only [hret]
          exact h
      | some k =>
          unfold completeJob
          simp only [hret]
          exact recordUsageTx_preserves k jobId r.pageCount (promptTokensOf r)
            (completionTokensOf r) r.llmModel now dbNow
            (completeJobRowWrite jobId r now db).1 hday h

end Lemmas

/-- C4: `failJob` publishes an `error`-typed notification exactly when
`shouldRetry` is false (then exactly one), publishes nothing at all when
`shouldRetry` is true, and in both cases durably writes status=`failed`
together with the error fields (and the bumped retry count) to the job row. -/
theorem failJob_error_notification_iff (db : DBState) (jobId ec em : String)
    (retry : Bool) (j : Job) (h : findJob? jobId db.jobs = some j) :
    (failJob jobId ec em retry db).2 =
      (if retry then [] else [JobUpdateMessage.error jobId em]) ∧
    findJob? jobId ((failJob jobId ec em retry db).1).jobs =
      some { j with errorCode := some ec, errorMessage := some em,
                    retryCount := j.retryCount + 1, status := .failed } :=
  ⟨rfl, failJob_row_eq db jobId ec em retry j h⟩

theorem failJob_error_notification_iff_witness :
    (failJob "job_abc" "E1" "boom" true sampleDB).2 =
      (if true then [] else [JobUpdateMessage.error "job_abc" "boom"]) ∧
    findJob? "job_abc" ((failJob "job_abc" "E1" "boom" true sampleDB).1).jobs =
      some { sampleJob with
             errorCode := some "E1", errorMessage := some "boom",
             retryCount := sampleJob.retryCount + 1, status := .failed } :=
  failJob_error_notification_iff sampleDB "job_abc" "E1" "boom" true sampleJob (by decide)

/-- C6: every `failJob` call sets the job's persisted retry count to its
current stored value plus one, for either value of `shouldRetry`. -/
theorem failJob_increments_retryCount (db : DBState) (jobId ec em : String)
    (retry : Bool) (j : Job) (h : findJob? jobId db.jobs = some j) :
    (findJob? jobId ((failJob jobId ec em retry db).1).jobs).map (·.retryCount) =
      some (j.retryCount + 1) := by
  rw [failJob_row_eq db jobId ec em retry j h]
  rfl

theorem failJob_increments_retryCount_witness :
    (findJob? "job_abc"
        ((failJob "job_abc" "E1" "boom" false sampleDB).1).jobs).map (·.retryCount) =
      some (sampleJob.retryCount + 1) :=
  failJob_increments_retryCount sampleDB "job_abc" "E1" "boom" false sampleJob (by decide)

/-- C5 (counterexample): the Job Store performs no transition validation, so
a status can move backwards out of a terminal state: on a job whose stored
status is the terminal `completed`, `updateJobStatus(..., "processing")`
leaves the job in `processing`, a strictly earlier state of the machine. -/
theorem jobStore_backward_transition :
    (findJob? "job_done" doneDB.jobs).map (·.status) = some JobStatus.completed ∧
    (findJob? "job_done"
        ((updateJobStatus "job_done" .processing {} doneDB).1).jobs).map (·.status) =
      some JobStatus.processing ∧
    statusRank .processing < statusRank .completed ∧
    isTerminal .completed = true := by
  decide

/-- C5 (amended): the Job Store operations validate nothing: for any stored
job, `updateJobStatus` overwrites the status with exactly the requested one,
whatever the prior status (monotonicity therefore holds only if callers issue
transitions in valid order). -/
theorem updateJobStatus_writes_requested_status (db : DBState) (jobId : String)
    (st : JobStatus) (data : UpdateData) (j : Job)
    (h : findJob? jobId db.jobs = some j) :
    findJob? jobId ((updateJobStatus jobId st data db).1).jobs =
      some (applyUpdate j st data) ∧ (applyUpdate j st data).status = st := by
  refine ⟨?_, rfl⟩
  have hmap := findJob?_map_target jobId db.jobs
    (fun x => applyUpdate x st data) (fun _ => rfl)
  simp [updateJobStatus, hmap, h]

theorem updateJobStatus_writes_requested_status_witness :
    findJob? "job_done"
        ((updateJobStatus "job_done" .processing {} doneDB).1).jobs =
      some (applyUpdate doneJob .processing {}) ∧
    (applyUpdate doneJob .processing {}).status = .processing :=
  updateJobStatus_writes_requested_status doneDB "job_done" .processing {} doneJob (by decide)

/-- C9: when no job row matches the given id, every mutation leaves the
database untouched and still publishes its notification: `updateJobStatus` a
`status` message, `completeJob` a `completed` message, `failJob` with
`shouldRetry=false` an `error` message. -/
theorem mutations_publish_without_row (db : DBState) (jobId : String)
    (h : ∀ j ∈ db.jobs, j.id ≠ jobId) :
    (∀ st data, (updateJobStatus jobId st data db).1 = db ∧
        (updateJobStatus jobId st data db).2 =
          [.status jobId st data.processingTimeMs]) ∧
    (∀ r now dbNow, (completeJob jobId r now dbNow db).1 = db ∧
        (completeJob jobId r now dbNow db).2 =
          [.completed jobId r.markdownResult r.jsonResult r.processingTimeMs]) ∧
    ∀ ec em, (failJob jobId ec em false db).1 = db ∧
        (failJob jobId ec em false db).2 = [.error jobId em] := by
  have hnone : findJob? jobId db.jobs = none := (findJob?_eq_none_iff _ _).mpr h
  refine ⟨fun st data => ⟨?_, rfl⟩, fun r now dbNow => ⟨?_, rfl⟩, fun ec em => ⟨?_, rfl⟩⟩
  · show ({ db with jobs := _ } : DBState) = db
    rw [map_no_id_match jobId db.jobs _ h]
  · show (match (findJob? jobId db.jobs).map _ with
      | some (some apiKeyId) => recordUsageTx apiKeyId jobId _ _ _ _ _ _ _
      | _ => _) = db
    rw [hnone]
    show ({ db with jobs := _ } : DBState) = db
    rw [map_no_id_match jobId db.jobs _ h]
  · show ({ db with jobs := _ } : DBState) = db
    rw [map_no_id_match jobId db.jobs _ h]

theorem mutations_publish_without_row_witness :
    (∀ st data, (updateJobStatus "job_ghost" st data emptyDB).1 = emptyDB ∧
        (updateJobStatus "job_ghost" st data emptyDB).2 =
          [.status "job_ghost" st data.processingTimeMs]) ∧
    (∀ r now dbNow, (completeJob "job_ghost" r now dbNow emptyDB).1 = emptyDB ∧
        (completeJob "job_ghost" r now dbNow emptyDB).2 =
          [.completed "job_ghost" r.markdownResult r.jsonResult r.processingTimeMs]) ∧
    ∀ ec em, (failJob "job_ghost" ec em false emptyDB).1 = emptyDB ∧
        (failJob "job_ghost" ec em false emptyDB).2 = [.error "job_ghost" em] :=
  mutations_publish_without_row emptyDB "job_ghost" (by simp [emptyDB])

/-- C7: with a resolved caller organization, gateway authorization is the
single row lookup scoped by (jobId, organizationId); when it misses — the job
not existing and the job belonging to a different organization being
observably identical — the handler sends the generic `Job not found` error,
closes, stores no `wsData`, and leaves the Bus without any new subscription. -/
theorem ws_open_denies_uniformly (jobId u orgA : String) (cb : Nat)
    (bus : BusState) (db1 db2 : DBState)
    (h1 : ∀ j ∈ db1.jobs, j.id ≠ jobId)
    (h2 : ∀ j ∈ db2.jobs, j.id = jobId → j.organizationId ≠ orgA) :
    jobsWsOpen jobId (some (u, orgA)) cb db1 bus =
      { sent := [.connError "Job not found"], closed := true, bus := bus,
        wsData := none } ∧
    jobsWsOpen jobId (some (u, orgA)) cb db2 bus =
      jobsWsOpen jobId (some (u, orgA)) cb db1 bus := by
  have e1 : findJobInOrg? jobId orgA db1.jobs = none :=
    (findJobInOrg?_eq_none_iff _ _ _).mpr fun j hj hc => h1 j hj hc.1
  have e2 : findJobInOrg? jobId orgA db2.jobs = none :=
    (findJobInOrg?_eq_none_iff _ _ _).mpr fun j hj hc => h2 j hj hc.1 hc.2
  constructor
  · simp [jobsWsOpen, e1]
  · simp [jobsWsOpen, e1, e2]

theorem ws_open_denies_uniformly_witness :
    jobsWsOpen "job_abc" (some ("u_2", "org_2")) 7 emptyDB { subs := [] } =
      { sent := [.connError "Job not found"], closed := true,
        bus := { subs := [] }, wsData := none } ∧
    jobsWsOpen "job_abc" (some ("u_2", "org_2")) 7 sampleDB { subs := [] } =
      jobsWsOpen "job_abc" (some ("u_2", "org_2")) 7 emptyDB { subs := [] } :=
  ws_open_denies_uniformly "job_abc" "u_2" "org_2" 7 { subs := [] } emptyDB sampleDB
    (by simp [emptyDB]) (by decide)

/-- C8: when the open handler authorized the job and subscribed a fresh
callback, it stored exactly the connection's (jobId, callback) in `wsData`,
and running the close handler on what open left behind removes exactly that
subscription: the Bus returns to its pre-connection state, so nothing created
by the connection remains registered. -/
theorem ws_close_removes_subscription (jobId u org : String) (cb : Nat)
    (db : DBState) (bus : BusState) (j : Job)
    (hfind : findJobInOrg? jobId org db.jobs = some j)
    (hfresh : (jobId, cb) ∉ bus.subs) :
    (jobsWsOpen jobId (some (u, org)) cb db bus).wsData =
      some { jobId := jobId, userId := u, organizationId := org, callback := cb } ∧
    jobsWsClose (jobsWsOpen jobId (some (u, org)) cb db bus).wsData
        (jobsWsOpen jobId (some (u, org)) cb db bus).bus = bus := by
  have hopen : jobsWsOpen jobId (some (u, org)) cb db bus =
      { sent := [.jobMsg (.status jobId j.status none)], closed := false,
        bus := subscribeToJob jobId cb bus,
        wsData := some { jobId := jobId, userId := u, organizationId := org,
                         callback := cb } } := by
    simp [jobsWsOpen, hfind]
  rw [hopen]
  refine ⟨rfl, ?_⟩
  show unsubscribeFromJob jobId cb (subscribeToJob jobId cb bus) = bus
  unfold subscribeToJob unsubscribeFromJob
  rw [if_neg hfresh]
  have hfilter : ((jobId, cb) :: bus.subs).filter (fun p => p ≠ (jobId, cb)) =
      bus.subs := by
    rw [List.filter_cons]
    simp only [ne_eq, not_true_eq_false, decide_False, Bool.false_eq_true, if_false]
    exact List.filter_eq_self.mpr fun a ha => by
      simp only [ne_eq, decide_eq_true_eq]
      exact fun heq => hfresh (heq ▸ ha)
  rw [hfilter]

theorem ws_close_removes_subscription_witness :
    (jobsWsOpen "job_abc" (some ("u_1", "org_1")) 7 sampleDB { subs := [("job_x", 3)] }).wsData =
      some { jobId := "job_abc", userId := "u_1", organizationId := "org_1",
             callback := 7 } ∧
    jobsWsClose
        (jobsWsOpen "job_abc" (some ("u_1", "org_1")) 7 sampleDB { subs := [("job_x", 3)] }).wsData
        (jobsWsOpen "job_abc" (some ("u_1", "org_1")) 7 sampleDB { subs := [("job_x", 3)] }).bus =
      { subs := [("job_x", 3)] } :=
  ws_close_removes_subscription "job_abc" "u_1" "org_1" 7 sampleDB
    { subs := [("job_x", 3)] } sampleJob (by decide) (by decide)

/-- C1: for a stored job with an owning API key and no usage event yet, one
`completeJob` leaves exactly one Usage Event row keyed by the jobId and
upserts the job's counts into the (apiKeyId, today) Daily Usage Aggregate
(the insert was new), and any further sequence of `completeJob` calls for
the same jobId — whatever their payloads and clocks — leaves the event count
at 1 and the Daily Usage Aggregate table unchanged (the duplicate insert is
a silent no-op and the aggregate increment is skipped exactly then). -/
theorem completeJob_idempotent_accounting (db : DBState) (jobId : String)
    (r : CompleteJobResult) (now dbNow : Nat) (j : Job) (k : String)
    (hfind : findJob? jobId db.jobs = some j)
    (hkey : j.apiKeyId = some k)
    (h0 : eventCount jobId db.usageEvents = 0) :
    eventCount jobId ((completeJob jobId r now dbNow db).1).usageEvents = 1 ∧
    (completeJob jobId r now dbNow db).1.apiKeyUsageDaily =
      upsertDaily k (msToDay now) r.pageCount (promptTokensOf r)
        (completionTokensOf r) db.apiKeyUsageDaily ∧
    ∀ calls : List CompleteCall, (∀ c ∈ calls, c.jobId = jobId) →
      eventCount jobId
          (runCompletes calls (completeJob jobId r now dbNow db).1).usageEvents = 1 ∧
      (runCompletes calls (completeJob jobId r now dbNow db).1).apiKeyUsageDaily =
        ((completeJob jobId r now dbNow db).1).apiKeyUsageDaily := by
  have hins := completeJob_inserts db jobId r now dbNow j k hfind hkey
    ((hasUsageEvent_eq_false_iff jobId db.usageEvents).mpr h0)
  have hcount1 :
      eventCount jobId ((completeJob jobId r now dbNow db).1).usageEvents = 1 := by
    rw [hins.1, eventCount_append, h0]
    simp [eventCount]
  refine ⟨hcount1, hins.2, fun calls hc => ?_⟩
  have hfrozen := runCompletes_usage_frozen calls
    (completeJob jobId r now dbNow db).1 jobId
    (hasUsageEvent_of_count_pos _ _ (by rw [hcount1]; exact one_ne_zero)) hc
  exact ⟨by rw [hfrozen.1, hcount1], hfrozen.2⟩

theorem completeJob_idempotent_accounting_witness :
    eventCount "job_abc"
        (runCompletes [{ jobId := "job_abc", result := sampleResult, now := 2000, dbNow := 2500 }]
          (completeJob "job_abc" sampleResult 1000 1500 sampleDB).1).usageEvents = 1 ∧
    (runCompletes [{ jobId := "job_abc", result := sampleResult, now := 2000, dbNow := 2500 }]
        (completeJob "job_abc" sampleResult 1000 1500 sampleDB).1).apiKeyUsageDaily =
      ((completeJob "job_abc" sampleResult 1000 1500 sampleDB).1).apiKeyUsageDaily :=
  (completeJob_idempotent_accounting sampleDB "job_abc" sampleResult 1000 1500
      sampleJob "ak_1" (by decide) (by decide) (by decide)).2.2
    [{ jobId := "job_abc", result := sampleResult, now := 2000, dbNow := 2500 }]
    (by intro c hc; simp only [List.mem_singleton] at hc; subst hc; rfl)

/-- C10: the Daily Usage Aggregate is keyed by the UTC calendar day of the
instant `completeJob` captures at invocation — the same instant it writes to
the job's `completedAt` — for every value of the database clock `dbNow`,
which lands only in the event row's `created_at` column (the insertion
time plays no role in the day key). -/
theorem completeJob_day_is_completion_date (db : DBState) (jobId : String)
    (r : CompleteJobResult) (now dbNow : Nat) (j : Job) (k : String)
    (hfind : findJob? jobId db.jobs = some j)
    (hkey : j.apiKeyId = some k)
    (h0 : eventCount jobId db.usageEvents = 0) :
    (findJob? jobId ((completeJob jobId r now dbNow db).1).jobs).map (·.completedAt) =
      some (some now) ∧
    (completeJob jobId r now dbNow db).1.apiKeyUsageDaily =
      upsertDaily k (msToDay now) r.pageCount (promptTokensOf r)
        (completionTokensOf r) db.apiKeyUsageDaily ∧
    (completeJob jobId r now dbNow db).1.usageEvents = db.usageEvents ++
      [{ id := db.nextEventId, apiKeyId := k, jobId := jobId,
         pages := r.pageCount, promptTokens := promptTokensOf r,
         completionTokens := completionTokensOf r, model := r.llmModel,
         createdAt := dbNow }] := by
  have hins := completeJob_inserts db jobId r now dbNow j k hfind hkey
    ((hasUsageEvent_eq_false_iff jobId db.usageEvents).mpr h0)
  refine ⟨?_, hins.2, hins.1⟩
  rw [completeJob_jobs_eq, completeJobRowWrite_row db jobId r now j hfind]
  rfl

theorem completeJob_day_is_completion_date_witness :
    (findJob? "job_abc"
        ((completeJob "job_abc" sampleResult 86399999 86400001 sampleDB).1).jobs).map
      (·.completedAt) = some (some 86399999) ∧
    (completeJob "job_abc" sampleResult 86399999 86400001 sampleDB).1.apiKeyUsageDaily =
      upsertDaily "ak_1" (msToDay 86399999) sampleResult.pageCount
        (promptTokensOf sampleResult) (completionTokensOf sampleResult)
        sampleDB.apiKeyUsageDaily ∧
    (completeJob "job_abc" sampleResult 86399999 86400001 sampleDB).1.usageEvents =
      sampleDB.usageEvents ++
      [{ id := sampleDB.nextEventId, apiKeyId := "ak_1", jobId := "job_abc",
         pages := sampleResult.pageCount, promptTokens := promptTokensOf sampleResult,
         completionTokens := completionTokensOf sampleResult,
         model := sampleResult.llmModel, createdAt := 86400001 }] :=
  completeJob_day_is_completion_date sampleDB "job_abc" sampleResult 86399999 86400001
    sampleJob "ak_1" (by decide) (by decide) (by decide)

/-- C3 (counterexample): the job-row write and the usage transaction are not
one durability boundary.  In the state `completeJobAfterRowCommit` — durable
once the first awaited statement of `completeJob` commits, before its
`db.transaction` begins — the job already has status `completed` while no
Usage Event and no Daily Aggregate row exist, even though the full call does
create the event; so it is false that the terminal-state write and the usage
writes all take durable effect or none do. -/
theorem completeJob_not_single_transaction :
    (findJob? "job_abc"
        (completeJobAfterRowCommit "job_abc" sampleResult 1000 sampleDB).jobs).map
      (·.status) = some JobStatus.completed ∧
    eventCount "job_abc"
        (completeJobAfterRowCommit "job_abc" sampleResult 1000 sampleDB).usageEvents = 0 ∧
    (completeJobAfterRowCommit "job_abc" sampleResult 1000 sampleDB).apiKeyUsageDaily = [] ∧
    eventCount "job_abc"
        ((completeJob "job_abc" sampleResult 1000 1000 sampleDB).1).usageEvents = 1 := by
  decide

/-- C3 (amended): per `completeJob` call the ledger runs at most once, and
the Usage Event insert and Daily Aggregate upsert are atomic with each
other, but they sit in a second durable unit that begins only after the
job-row write committed: the first unit sets status=`completed` and touches
no usage rows, the second touches only usage rows (inserting the event and
upserting the aggregate together) and no job rows. -/
theorem completeJob_two_durable_units (db : DBState) (jobId : String)
    (r : CompleteJobResult) (now dbNow : Nat) (j : Job) (k : String)
    (hfind : findJob? jobId db.jobs = some j)
    (hkey : j.apiKeyId = some k)
    (h0 : eventCount jobId db.usageEvents = 0) :
    (findJob? jobId (completeJobAfterRowCommit jobId r now db).jobs).map (·.status) =
      some JobStatus.completed ∧
    (completeJobAfterRowCommit jobId r now db).usageEvents = db.usageEvents ∧
    (completeJobAfterRowCommit jobId r now db).apiKeyUsageDaily = db.apiKeyUsageDaily ∧
    (completeJob jobId r now dbNow db).1.jobs =
      (completeJobAfterRowCommit jobId r now db).jobs ∧
    (completeJob jobId r now dbNow db).1.usageEvents =
      (completeJobAfterRowCommit jobId r now db).usageEvents ++
      [{ id := db.nextEventId, apiKeyId := k, jobId := jobId,
         pages := r.pageCount, promptTokens := promptTokensOf r,
         completionTokens := completionTokensOf r, model := r.llmModel,
         createdAt := dbNow }] ∧
    (completeJob jobId r now dbNow db).1.apiKeyUsageDaily =
      upsertDaily k (msToDay now) r.pageCount (promptTokensOf r)
        (completionTokensOf r) (completeJobAfterRowCommit jobId r now db).apiKeyUsageDaily := by
  have hins := completeJob_inserts db jobId r now dbNow j k hfind hkey
    ((hasUsageEvent_eq_false_iff jobId db.usageEvents).mpr h0)
  refine ⟨?_, rfl, rfl, completeJob_jobs_eq db jobId r now dbNow, hins.1, hins.2⟩
  rw [completeJobAfterRowCommit, completeJobRowWrite_row db jobId r now j hfind]
  rfl

theorem completeJob_two_durable_units_witness :
    (findJob? "job_abc"
        (completeJobAfterRowCommit "job_abc" sampleResult 1000 sampleDB).jobs).map
      (·.status) = some JobStatus.completed ∧
    (completeJobAfterRowCommit "job_abc" sampleResult 1000 sampleDB).usageEvents =
      sampleDB.usageEvents ∧
    (completeJobAfterRowCommit "job_abc" sampleResult 1000 sampleDB).apiKeyUsageDaily =
      sampleDB.apiKeyUsageDaily ∧
    (completeJob "job_abc" sampleResult 1000 2000 sampleDB).1.jobs =
      (completeJobAfterRowCommit "job_abc" sampleResult 1000 sampleDB).jobs ∧
    (completeJob "job_abc" sampleResult 1000 2000 sampleDB).1.usageEvents =
      (completeJobAfterRowCommit "job_abc" sampleResult 1000 sampleDB).usageEvents ++
      [{ id := sampleDB.nextEventId, apiKeyId := "ak_1", jobId := "job_abc",
         pages := sampleResult.pageCount, promptTokens := promptTokensOf sampleResult,
         completionTokens := completionTokensOf sampleResult,
         model := sampleResult.llmModel, createdAt := 2000 }] ∧
    (completeJob "job_abc" sampleResult 1000 2000 sampleDB).1.apiKeyUsageDaily =
      upsertDaily "ak_1" (msToDay 1000) sampleResult.pageCount
        (promptTokensOf sampleResult) (completionTokensOf sampleResult)
        (completeJobAfterRowCommit "job_abc" sampleResult 1000 sampleDB).apiKeyUsageDaily :=
  completeJob_two_durable_units sampleDB "job_abc" sampleResult 1000 2000
    sampleJob "ak_1" (by decide) (by decide) (by decide)

/-- C2 (counterexample): aggregate consistency against "events created on
that day" fails when a completion straddles UTC midnight between the
application clock and the database clock: completing `job_abc` with a
captured instant in day 0 while the event row's `created_at` default falls
in day 1 leaves an aggregate row for (`ak_1`, day 0) with pages=2, jobsCount=1
although no usage event for `ak_1` was created on day 0. -/
theorem aggregate_mismatch_on_midnight_straddle :
    (completeJob "job_abc" sampleResult 86399999 86400000 sampleDB).1.apiKeyUsageDaily =
      [{ apiKeyId := "ak_1", day := 0, pages := 2, jobsCount := 1,
         promptTokens := 30, completionTokens := 20 }] ∧
    sumEvents "ak_1" 0
        (completeJob "job_abc" sampleResult 86399999 86400000 sampleDB).1.usageEvents =
      (0, 0, 0, 0) ∧
    ¬ aggConsistent (completeJob "job_abc" sampleResult 86399999 86400000 sampleDB).1 :=
  ⟨by decide, by decide, fun h => absurd (h.2 "ak_1" 0) (by decide)⟩

/-- C2 (amended): for every (apiKeyId, day) pair, after any sequence of
`completeJob` calls in each of which the database insertion instant falls on
the same UTC day as the captured completion instant, there is at most one
Daily Usage Aggregate row per pair and its counts (pages, jobsCount,
promptTokens, completionTokens) equal the sums over all Usage Events for
that API key created on that day; without the same-day proviso the event is
aggregated under the completion instant's day while bearing the insertion
day's `created_at`. -/
theorem runCompletes_aggConsistent (calls : List CompleteCall) (db : DBState)
    (h : aggConsistent db)
    (hd : ∀ c ∈ calls, msToDay c.dbNow = msToDay c.now) :
    aggConsistent (runCompletes calls db) := by
  induction calls generalizing db with
  | nil => exact h
  | cons c cs ih =>
      exact ih (completeJob c.jobId c.result c.now c.dbNow db).1
        (completeJob_preserves_aggConsistent c.jobId c.result c.now c.dbNow db
          (hd c (by simp)) h)
        (fun x hx => hd x (by simp [hx]))

theorem runCompletes_aggConsistent_witness :
    aggConsistent (runCompletes
      [{ jobId := "job_abc", result := sampleResult, now := 1000, dbNow := 2000 },
       { jobId := "job_abc", result := sampleResult, now := 3000, dbNow := 4000 }]
      sampleDB) :=
  runCompletes_aggConsistent
    [{ jobId := "job_abc", result := sampleResult, now := 1000, dbNow := 2000 },
     { jobId := "job_abc", result := sampleResult, now := 3000, dbNow := 4000 }]
    sampleDB ⟨List.Pairwise.nil, fun _ _ => rfl⟩
    (by
      intro c hc
      simp only [List.mem_cons, List.not_mem_nil, or_false] at hc
      rcases hc with rfl | rfl <;> rfl)
